import Mathlib

/-!
# HaggleHub API — verification of the inbound message resolution engine

Shallow embedding of the JavaScript sources of the `hagglehub-api` repository
(Express handlers in `src/index.js`, `src/server.js` and the variant files in
`src/unnamed/`).  Pure JavaScript helper functions become Lean functions over
`String` / `List Char`; the in-memory `messages` array becomes explicit state
passing; fallible operations (JSON parsing, `fetch`) are modelled by `Option` /
`Except` inputs describing the outcome of the library call.  JavaScript regular
expressions are embedded as explicit left-to-right scans with the same
backtracking semantics, specialised to the concrete patterns of the source.

Naming: `V1` = the user-token variant of `src/index.js` (its first section),
`V2` = the token-based-deal variant (second section), `V3` = the Base44
multi-identifier variant (third section); `Server` = the `messageProcessor`
variant in `src/server.js`; `P1`, `P2`, `P6`, `P7`, `P8` = the corresponding
files in `src/unnamed/`.
-/

namespace HaggleHub

/-! ## JavaScript string semantics helpers -/

/-- JS `a || b` for strings: the empty string is falsy. -/
def jsOr (a b : String) : String := if a = "" then b else a

/-- JS regex `\w` (word character): `[A-Za-z0-9_]`. -/
def isWordChar (c : Char) : Bool := c.isAlpha || c.isDigit || c == '_'

/-- JS regex `\s` (whitespace), restricted to the code points it actually
covers: tab, LF, VT, FF, CR, space, NBSP, Ogham space, the U+2000–U+200A
range, LS, PS, NNBSP, MMSP, ideographic space and BOM. -/
def isJsWhitespace (c : Char) : Bool :=
  c == '\t' || c == '\n' || c == '\u000b' || c == '\u000c' || c == '\r' ||
  c == ' ' || c == '\u00a0' || c == '\u1680' ||
  ('\u2000' ≤ c && c ≤ '\u200a') ||
  c == '\u2028' || c == '\u2029' || c == '\u202f' || c == '\u205f' ||
  c == '\u3000' || c == '\ufeff'

/-- JS `LineTerminator` set (what `.` in a regex does NOT match). -/
def isLineTerminator (c : Char) : Bool :=
  c == '\n' || c == '\r' || c == '\u2028' || c == '\u2029'

/-- Case-insensitive comparison of a subject character `c` against a lowercase
pattern letter `d`, as a regex `/i` flag does for ASCII letters. -/
def lcEq (c d : Char) : Bool := c.toLower == d

/-- JS `String.prototype.toLowerCase` (ASCII part, which is all the sources use). -/
def lowerStr (s : String) : String := String.mk (s.data.map Char.toLower)

/-- JS `String.prototype.toUpperCase` (ASCII part). -/
def upperStr (s : String) : String := String.mk (s.data.map Char.toUpper)

/-- JS `String.prototype.trim`: strip whitespace and line terminators on both ends. -/
def jsTrim (s : String) : String :=
  String.mk (((s.data.dropWhile isJsWhitespace).reverse.dropWhile isJsWhitespace).reverse)

/-- JS `String.prototype.split(sep)` on a single-character separator. -/
def splitList (sep : Char) : List Char → List (List Char)
  | [] => [[]]
  | c :: rest =>
    let r := splitList sep rest
    if c = sep then [] :: r
    else
      match r with
      | h :: t => (c :: h) :: t
      | [] => [[c]]

/-- JS `hay.includes(needle)` on character lists: contiguous substring test. -/
def jsIncludes (hay needle : List Char) : Bool :=
  (List.range (hay.length + 1)).any (fun i => (hay.drop i).take needle.length == needle)

/-- JS object built by assigning key/value pairs in order (later keys
overwrite): lookup takes the LAST binding of the key, `""` when absent. -/
def jsGet (o : List (String × String)) (k : String) : String :=
  (((o.filter (fun kv => kv.1 == k)).getLast?).map (·.2)).getD ""

/-! ## VIN extraction — the regex `/\b([A-HJ-NPR-Z0-9]{17})\b/i`

Used verbatim in `src/server.js` (`extractVIN`), `src/index.js` (`extractVIN`
and `VIN_RE` / `extractCandidates`) and `src/unnamed/part_002/003/006/008`.
The character class is the VIN alphabet: letters except I, O, Q, plus digits,
in either case. -/

/-- The regex class `[A-HJ-NPR-Z0-9]` under the `/i` flag. -/
def isVinChar (c : Char) : Bool :=
  ('A' ≤ c && c ≤ 'H') || ('J' ≤ c && c ≤ 'N') || c == 'P' || ('R' ≤ c && c ≤ 'Z') ||
  ('a' ≤ c && c ≤ 'h') || ('j' ≤ c && c ≤ 'n') || c == 'p' || ('r' ≤ c && c ≤ 'z') ||
  c.isDigit

/-- `true` when position `j` of `cs` is past the end or holds a non-word
character (used for the `\b` assertions around the 17 VIN characters). -/
def notWordAt (cs : List Char) (j : Nat) : Bool :=
  match cs[j]? with
  | some c => !isWordChar c
  | none => true

/-- `\b` before the match at position `i`: start of input, or the previous
character is not a word character.  (The matched characters themselves are
word characters, so this is exactly the word-boundary condition.) -/
def boundaryBeforeAt (cs : List Char) (i : Nat) : Bool :=
  match i with
  | 0 => true
  | j + 1 => notWordAt cs j

/-- The regex `\b[A-HJ-NPR-Z0-9]{17}\b` matches at position `i` of `cs`. -/
def vinCandidateAt (cs : List Char) (i : Nat) : Bool :=
  (i + 17 ≤ cs.length : Bool) && ((cs.drop i).take 17).all isVinChar &&
    boundaryBeforeAt cs i && notWordAt cs (i + 17)

/-- Left-to-right scan of the regex engine: first position `≥ i` (within
`fuel` steps) where the VIN pattern matches. -/
def firstVinIdx (cs : List Char) : Nat → Nat → Option Nat
  | _, 0 => none
  | i, fuel + 1 => if vinCandidateAt cs i then some i else firstVinIdx cs (i + 1) fuel

/-- First match of `/\b([A-HJ-NPR-Z0-9]{17})\b/i` in `cs` (the capture group). -/
def findVin (cs : List Char) : Option (List Char) :=
  match firstVinIdx cs 0 (cs.length + 1) with
  | some i => some ((cs.drop i).take 17)
  | none => none

/-- `extractVIN` of `src/server.js` lines 113–118 (also
`src/unnamed/part_002` line 26): first match, uppercased, `""` when there is
no text or no match. -/
def extractVIN (text : String) : String :=
  if text = "" then ""
  else
    match findVin text.data with
    | some w => String.mk (w.map Char.toUpper)
    | none => ""

/-- `extractVIN` of `src/index.js` lines 526–536 (third section): same match,
but `null` (here `none`) when there is no text or no match. -/
def extractVINOpt (text : String) : Option String :=
  if text = "" then none
  else (findVin text.data).map (fun w => String.mk (w.map Char.toUpper))

/-! ## Correctness of the VIN scan -/

theorem firstVinIdx_eq_some (cs : List Char) (k : Nat) (hk : vinCandidateAt cs k = true) :
    ∀ fuel i, i ≤ k → k < i + fuel →
      (∀ j, i ≤ j → j < k → vinCandidateAt cs j = false) →
      firstVinIdx cs i fuel = some k := by
  intro fuel
  induction fuel with
  | zero => intro i _ h2 _; omega
  | succ n ih =>
    intro i h1 h2 h3
    by_cases hc : vinCandidateAt cs i = true
    · have hik : i = k := by
        by_contra hne
        have := h3 i le_rfl (lt_of_le_of_ne h1 hne)
        rw [this] at hc
        exact Bool.false_ne_true hc
      subst hik
      simp [firstVinIdx, hc]
    · have hik : i < k := by
        rcases Nat.lt_or_ge i k with h | h
        · exact h
        · exact absurd hk (by have : i = k := le_antisymm h1 h; rw [← this]; exact hc)
      simp only [firstVinIdx]
      rw [if_neg (by simpa using hc)]
      exact ih (i + 1) hik (by omega) (fun j hj1 hj2 => h3 j (by omega) hj2)

theorem firstVinIdx_eq_none (cs : List Char) (h : ∀ j, vinCandidateAt cs j = false) :
    ∀ fuel i, firstVinIdx cs i fuel = none := by
  intro fuel
  induction fuel with
  | zero => intro i; rfl
  | succ n ih =>
    intro i
    simp only [firstVinIdx]
    rw [if_neg (by simp [h i]), ih]

theorem uint32_le_toNat (a b : UInt32) : a ≤ b ↔ a.toNat ≤ b.toNat := Iff.rfl

theorem vinChar_isWordChar {c : Char} (h : isVinChar c = true) : isWordChar c = true := by
  unfold isVinChar at h
  unfold isWordChar Char.isAlpha Char.isUpper Char.isLower
  simp only [Bool.or_eq_true, Bool.and_eq_true, decide_eq_true_eq, beq_iff_eq,
    Char.le_def, ge_iff_le, uint32_le_toNat] at h ⊢
  have e1 : ('A'.val).toNat = 65 := rfl
  have e2 : ('H'.val).toNat = 72 := rfl
  have e3 : ('J'.val).toNat = 74 := rfl
  have e4 : ('N'.val).toNat = 78 := rfl
  have e5 : ('R'.val).toNat = 82 := rfl
  have e6 : ('Z'.val).toNat = 90 := rfl
  have e7 : ('a'.val).toNat = 97 := rfl
  have e8 : ('h'.val).toNat = 104 := rfl
  have e9 : ('j'.val).toNat = 106 := rfl
  have e10 : ('n'.val).toNat = 110 := rfl
  have e11 : ('r'.val).toNat = 114 := rfl
  have e12 : ('z'.val).toNat = 122 := rfl
  have e13 : ((65 : UInt32)).toNat = 65 := rfl
  have e14 : ((90 : UInt32)).toNat = 90 := rfl
  have e15 : ((97 : UInt32)).toNat = 97 := rfl
  have e16 : ((122 : UInt32)).toNat = 122 := rfl
  have e17 : ('P'.val).toNat = 80 := rfl
  have e18 : ('p'.val).toNat = 112 := rfl
  rcases h with ((((((((⟨a, b⟩ | ⟨a, b⟩) | h3) | ⟨a, b⟩) | ⟨a, b⟩) | ⟨a, b⟩) | h7) | ⟨a, b⟩) | h9)
  · exact Or.inl (Or.inl (Or.inl (by omega)))
  · exact Or.inl (Or.inl (Or.inl (by omega)))
  · subst h3; exact Or.inl (Or.inl (Or.inl (by omega)))
  · exact Or.inl (Or.inl (Or.inl (by omega)))
  · exact Or.inl (Or.inl (Or.inr (by omega)))
  · exact Or.inl (Or.inl (Or.inr (by omega)))
  · subst h7; exact Or.inl (Or.inl (Or.inr (by omega)))
  · exact Or.inl (Or.inl (Or.inr (by omega)))
  · exact Or.inl (Or.inr h9)

/-- The decomposition hypotheses of C4 give a regex match at position `pre.length`. -/
theorem vinCandidateAt_append (pre w post : List Char)
    (hw : w.length = 17) (hall : w.all isVinChar = true)
    (hpre : pre = [] ∨ ∃ c, pre.getLast? = some c ∧ isWordChar c = false)
    (hpost : post = [] ∨ ∃ c, post.head? = some c ∧ isWordChar c = false) :
    vinCandidateAt (pre ++ (w ++ post)) pre.length = true := by
  unfold vinCandidateAt
  have hdrop : (pre ++ (w ++ post)).drop pre.length = w ++ post := List.drop_left pre (w ++ post)
  have htake : ((pre ++ (w ++ post)).drop pre.length).take 17 = w := by
    rw [hdrop]; exact List.take_left' hw
  have hlen : pre.length + 17 ≤ (pre ++ (w ++ post)).length := by
    simp [List.length_append]; omega
  have hbefore : boundaryBeforeAt (pre ++ (w ++ post)) pre.length = true := by
    rcases hpre with h | ⟨c, hc1, hc2⟩
    · subst h; rfl
    · have hne : pre ≠ [] := by
        intro h; rw [h] at hc1; exact Option.noConfusion hc1
      have hpos : 0 < pre.length := List.length_pos.mpr hne
      obtain ⟨j, hjlen⟩ : ∃ j, pre.length = j + 1 := ⟨pre.length - 1, by omega⟩
      rw [hjlen]
      show notWordAt (pre ++ (w ++ post)) j = true
      unfold notWordAt
      have h1 : (pre ++ (w ++ post))[j]? = pre[j]? := List.getElem?_append_left (by omega)
      have h2 : pre[j]? = some c := by
        rw [← hc1, List.getLast?_eq_getElem? pre]
        congr 1
        omega
      rw [h1, h2]
      show (!isWordChar c) = true
      rw [hc2]
      rfl
  have hafter : notWordAt (pre ++ (w ++ post)) (pre.length + 17) = true := by
    unfold notWordAt
    have hidx : (pre ++ (w ++ post))[pre.length + 17]? = post[0]? := by
      rw [← List.append_assoc]
      have hlen2 : (pre ++ w).length = pre.length + 17 := by
        simp [List.length_append, hw]
      rw [List.getElem?_append_right (by omega)]
      congr 1
      omega
    rw [hidx]
    rcases hpost with h | ⟨c, hc1, hc2⟩
    · subst h; rfl
    · rw [← List.head?_eq_getElem? post, hc1]
      show (!isWordChar c) = true
      rw [hc2]
      rfl
  rw [htake, hall, hbefore, hafter]
  simp only [Bool.and_true, Bool.true_and, decide_eq_true_eq, List.length_append]
  omega

theorem no_candidate_of_bad_char (w : List Char) (hw : w.length = 17)
    (c : Char) (hc : c ∈ w) (hbad : isVinChar c = false) :
    ∀ j, vinCandidateAt w j = false := by
  intro j
  unfold vinCandidateAt
  rcases Nat.eq_zero_or_pos j with hj | hj
  · subst hj
    have htake : w.take 17 = w := by rw [← hw]; exact List.take_length w
    have hall : w.all isVinChar = false := by
      cases hb : w.all isVinChar with
      | false => rfl
      | true =>
        rw [List.all_eq_true] at hb
        rw [hb c hc] at hbad
        exact absurd hbad (by simp)
    simp [htake, hall]
  · have hno : ¬(j + 17 ≤ w.length) := by omega
    simp [hno]

/-- **C4** (`functional_correctness`): for every text containing a 17-character
word-bounded substring over the VIN alphabet `[A-HJ-NPR-Z0-9]` in either case,
`extractVIN` returns that substring uppercased — the first such match; and a
17-character candidate containing the letter I, O or Q (either case) yields no
VIN. -/
theorem vin_extraction_correct :
    (∀ pre w post : List Char, w.length = 17 → w.all isVinChar = true →
      (pre = [] ∨ ∃ c, pre.getLast? = some c ∧ isWordChar c = false) →
      (post = [] ∨ ∃ c, post.head? = some c ∧ isWordChar c = false) →
      (∀ j, j < pre.length → vinCandidateAt (pre ++ (w ++ post)) j = false) →
      extractVIN (String.mk (pre ++ (w ++ post))) = String.mk (w.map Char.toUpper)) ∧
    (∀ w : List Char, w.length = 17 →
      (∃ c ∈ w, c = 'I' ∨ c = 'O' ∨ c = 'Q' ∨ c = 'i' ∨ c = 'o' ∨ c = 'q') →
      extractVIN (String.mk w) = "") := by
  constructor
  · intro pre w post hw hall hpre hpost hfirst
    have hcand := vinCandidateAt_append pre w post hw hall hpre hpost
    have hlenle : pre.length ≤ (pre ++ (w ++ post)).length := by
      simp [List.length_append]
    have hfind : firstVinIdx (pre ++ (w ++ post)) 0 ((pre ++ (w ++ post)).length + 1) =
        some pre.length :=
      firstVinIdx_eq_some _ _ hcand _ 0 (Nat.zero_le _) (by omega)
        (fun j _ hj2 => hfirst j hj2)
    have hne : String.mk (pre ++ (w ++ post)) ≠ "" := by
      intro h
      have hdat : pre ++ (w ++ post) = [] := by
        have := congrArg String.data h
        simpa using this
      rcases List.append_eq_nil.mp hdat with ⟨_, h2⟩
      rcases List.append_eq_nil.mp h2 with ⟨hwnil, _⟩
      rw [hwnil] at hw
      simp at hw
    unfold extractVIN
    rw [if_neg hne]
    unfold findVin
    have hdata : (String.mk (pre ++ (w ++ post))).data = pre ++ (w ++ post) := rfl
    rw [hdata, hfind]
    have htk : ((pre ++ (w ++ post)).drop pre.length).take 17 = w := by
      rw [List.drop_left]
      exact List.take_left' hw
    show String.mk ((((pre ++ (w ++ post)).drop pre.length).take 17).map Char.toUpper) =
      String.mk (w.map Char.toUpper)
    rw [htk]
  · intro w hw ⟨c, hc, hor⟩
    have hbad : isVinChar c = false := by
      rcases hor with h | h | h | h | h | h <;> subst h <;> decide
    have hnone := no_candidate_of_bad_char w hw c hc hbad
    by_cases hnil : String.mk w = ""
    · rw [hnil]; rfl
    · unfold extractVIN
      rw [if_neg hnil]
      unfold findVin
      have hdata : (String.mk w).data = w := rfl
      rw [hdata, firstVinIdx_eq_none w hnone _ 0]

/-- Witness for C4: `"x abcdefgh1234567jk y"` yields `"ABCDEFGH1234567JK"`,
and a lone 17-character candidate containing `I` yields nothing. -/
theorem vin_extraction_correct_witness :
    extractVIN (String.mk (['x', ' '] ++
        (['a','b','c','d','e','f','g','h','1','2','3','4','5','6','7','j','k'] ++ [' ', 'y']))) =
      String.mk (['a','b','c','d','e','f','g','h','1','2','3','4','5','6','7','j','k'].map
        Char.toUpper) ∧
    extractVIN (String.mk ['A','B','C','D','E','F','G','H','I','1','2','3','4','5','6','7','8']) =
      "" := by
  constructor
  · exact vin_extraction_correct.1 ['x', ' ']
      ['a','b','c','d','e','f','g','h','1','2','3','4','5','6','7','j','k'] [' ', 'y']
      (by decide) (by decide)
      (Or.inr ⟨' ', by decide, by decide⟩) (Or.inr ⟨' ', by decide, by decide⟩)
      (by decide)
  · exact vin_extraction_correct.2
      ['A','B','C','D','E','F','G','H','I','1','2','3','4','5','6','7','8']
      (by decide) ⟨'I', by decide, by decide⟩

/-! ## Routing-token and URL extraction -/

/-- Character class `[a-z0-9]` of the recipient-token regex. -/
def isTokenChar (c : Char) : Bool := ('a' ≤ c && c ≤ 'z') || c.isDigit

/-- The regex `/^deals-([a-z0-9]+)@/` applied to the lowercased recipient, as in
`src/index.js` line 206 (`deals-<key>@...` → user key) and line 445, and in
`src/unnamed/part_007` (`matchDealForEmail` strategy 1).  The capture group is
the maximal `[a-z0-9]` run, which must be nonempty and followed by `@`. -/
def tokenOfRecipient (recipient : String) : Option String :=
  let low := recipient.data.map Char.toLower
  if low.take 6 = "deals-".data then
    let rest := low.drop 6
    let run := rest.takeWhile isTokenChar
    if run ≠ [] ∧ (rest.drop run.length).head? = some '@' then some (String.mk run)
    else none
  else none

/-- Stop class of the URL regex: `[^\s)>\]]` complements these. -/
def isUrlStop (c : Char) : Bool := isJsWhitespace c || c == ')' || c == '>' || c == ']'

/-- After `http`/`https`: match `://` and the greedy nonempty run of
non-stop characters. -/
def urlSchemeTail (l : List Char) : Option (List Char) :=
  match l with
  | ':' :: '/' :: '/' :: body =>
    let run := body.takeWhile (fun c => !isUrlStop c)
    if run = [] then none else some (':' :: '/' :: '/' :: run)
  | _ => none

/-- Match `https?:\/\/[^\s)>\]]+` (case-insensitive) at the head of `cs`. -/
def urlAtHead (cs : List Char) : Option (List Char) :=
  match cs with
  | c1 :: c2 :: c3 :: c4 :: rest =>
    if lcEq c1 'h' && lcEq c2 't' && lcEq c3 't' && lcEq c4 'p' then
      match rest with
      | c5 :: rest1 =>
        if lcEq c5 's' then
          match urlSchemeTail rest1 with
          | some run => some (c1 :: c2 :: c3 :: c4 :: c5 :: run)
          | none => none
        else
          match urlSchemeTail rest with
          | some run => some (c1 :: c2 :: c3 :: c4 :: run)
          | none => none
      | [] => none
    else none
  | _ => none

/-- Leftmost match of the URL regex (`fuel` at least `cs.length` suffices). -/
def findUrlAux : Nat → List Char → Option (List Char)
  | 0, _ => none
  | _ + 1, [] => none
  | fuel + 1, c :: rest =>
    match urlAtHead (c :: rest) with
    | some m => some m
    | none => findUrlAux fuel rest

/-- `hay.match(/https?:\/\/[^\s)>\]]+/i)` — first URL substring. -/
def findUrl (cs : List Char) : Option String :=
  (findUrlAux (cs.length + 1) cs).map String.mk

/-- `(sender || "").split("@")[1]?.toLowerCase()`, the sender-domain strategy
input of `matchDealForUser` and `matchDealForEmail`. -/
def senderDomain (sender : String) : Option String :=
  ((splitList '@' sender.data)[1]?).map (fun d => lowerStr (String.mk d))

/-- `extractCandidates` of `src/index.js` lines 73–79 and
`src/unnamed/part_007`: first VIN (not yet uppercased) and first URL of the
haystack `subject\ntext\nhtml`. -/
def extractCandidates (subject text html : String) : Option String × Option String :=
  let hay := subject ++ "\n" ++ text ++ "\n" ++ html
  ((findVin hay.data).map String.mk, findUrl hay.data)

/-! ## P7 — `src/unnamed/part_007`, the heuristic deal matcher -/

namespace P7

/-- Deal record of `src/unnamed/part_007`; optional JS fields are `""` when
absent, matching the `(d.f || "")` guards in the matcher. -/
structure Deal where
  id : Nat
  key : String
  dealerName : String
  dealerEmailDomain : String
  vehicleTitle : String
  vin : String
  url : String
  status : String
deriving DecidableEq

/-- An inbound email as the webhook handler normalizes it. -/
structure EmailMsg where
  recipient : String
  sender : String
  subject : String
  text : String
  html : String
deriving DecidableEq

/-- Strategies 2–4 of `matchDealForEmail`: VIN exact match, dealer email
domain exact match, URL containment. -/
def matchByContent (deals : List Deal) (m : EmailMsg) : Option Deal :=
  let cands := extractCandidates m.subject m.text m.html
  let byVin : Option Deal :=
    match cands.1 with
    | some v => deals.find? (fun d => upperStr d.vin == upperStr v)
    | none => none
  match byVin with
  | some d => some d
  | none =>
    let byDomain : Option Deal :=
      match senderDomain m.sender with
      | some dom =>
        if dom = "" then none
        else deals.find? (fun d => lowerStr d.dealerEmailDomain == dom)
      | none => none
    match byDomain with
    | some d => some d
    | none =>
      match cands.2 with
      | some url =>
        deals.find? (fun d => d.url != "" && jsIncludes (lowerStr url).data (lowerStr d.url).data)
      | none => none

/-- `matchDealForEmail` of `src/unnamed/part_007` lines 117–147: strategy 1 is
the recipient token (`deals-<key>@`); on its success the deal is returned at
once, otherwise strategies 2–4 run in order; unmatched is `none`. -/
def matchDealForEmail (deals : List Deal) (m : EmailMsg) : Option Deal :=
  match tokenOfRecipient m.recipient with
  | some t =>
    match deals.find? (fun d => d.key == t) with
    | some d => some d
    | none => matchByContent deals m
  | none => matchByContent deals m

end P7

/-- **C1** (`functional_correctness`): when the routing token resolves to a
deal, that deal is returned even when the extracted VIN matches a different
deal — the token strategy preempts the VIN, sender-domain and URL strategies. -/
theorem token_match_preempts_vin (deals : List P7.Deal) (m : P7.EmailMsg)
    (t v : String) (A B : P7.Deal)
    (htok : tokenOfRecipient m.recipient = some t)
    (hA : deals.find? (fun d => d.key == t) = some A)
    (hv : (extractCandidates m.subject m.text m.html).1 = some v)
    (hB : deals.find? (fun d => upperStr d.vin == upperStr v) = some B)
    (hBA : B ≠ A) :
    P7.matchDealForEmail deals m = some A := by
  unfold P7.matchDealForEmail
  rw [htok]
  show (match deals.find? (fun d => d.key == t) with
        | some d => some d
        | none => P7.matchByContent deals m) = some A
  rw [hA]

/-- The two deals of the C1 witness: `c1DealB` holds the VIN that the message
body carries, `c1DealA` holds the alias key of the recipient address. -/
def c1DealA : P7.Deal :=
  { id := 2, key := "abc", dealerName := "Alpha Motors", dealerEmailDomain := "alpha.com",
    vehicleTitle := "Car A", vin := "", url := "", status := "open" }

def c1DealB : P7.Deal :=
  { id := 1, key := "zzz", dealerName := "Beta Motors", dealerEmailDomain := "beta.com",
    vehicleTitle := "Car B", vin := "1ABCDEFG2HJKLM345", url := "", status := "open" }

/-- Witness for C1: token `abc` → deal A although the body VIN matches deal B
(listed first, so VIN-first matching would have returned B). -/
theorem token_match_preempts_vin_witness :
    P7.matchDealForEmail [c1DealB, c1DealA]
      { recipient := "deals-abc@hagglehub.app", sender := "bob@beta.com",
        subject := "Re: car", text := "VIN: 1ABCDEFG2HJKLM345", html := "" } =
      some c1DealA :=
  token_match_preempts_vin [c1DealB, c1DealA] _ "abc" "1ABCDEFG2HJKLM345" c1DealA c1DealB
    (by decide) (by decide) (by decide) (by decide) (by decide)

/-! ## V1 — `src/index.js` first section: the user-token model -/

namespace V1

/-- User record (`src/index.js` lines 30–33). -/
structure User where
  key : String
  name : String
deriving DecidableEq

/-- Deal record (`src/index.js` lines 36–48): belongs to a user via `userKey`;
optional JS fields are `""` when absent. -/
structure Deal where
  id : Nat
  userKey : String
  dealerName : String
  dealerEmailDomain : String
  vehicleTitle : String
  vin : String
  url : String
  status : String
deriving DecidableEq

/-- Message record (`src/index.js` lines 50–54, shapes at 173–183 and
214–223).  `meta` is the JS meta object as key/value pairs; `createdAt` is
not modelled — only insertion order matters for the claims. -/
structure Msg where
  id : Nat
  userKey : Option String
  dealId : Option Nat
  channel : String
  direction : String
  body : String
  meta : List (String × String)
deriving DecidableEq

/-- Normalized webhook fields (`src/index.js` lines 196–202): each is the
first non-empty synonym of the raw form, `""` when absent. -/
structure Req where
  recipient : String
  sender : String
  subject : String
  text : String
  html : String
  messageId : String
deriving DecidableEq

/-- `matchDealForUser` (`src/index.js` lines 82–101): over this user's deals
only — VIN exact match, then sender email domain, then URL containment;
`none` when the user has no deals or nothing matches. -/
def matchDealForUser (deals : List Deal) (userKey : String) (r : Req) : Option Deal :=
  let userDeals := deals.filter (fun d => d.userKey == userKey)
  if userDeals.isEmpty then none
  else
    let cands := extractCandidates r.subject r.text r.html
    let byVin : Option Deal :=
      match cands.1 with
      | some v => userDeals.find? (fun d => upperStr d.vin == upperStr v)
      | none => none
    match byVin with
    | some d => some d
    | none =>
      let byDomain : Option Deal :=
        match senderDomain r.sender with
        | some dom =>
          if dom = "" then none
          else userDeals.find? (fun d => lowerStr d.dealerEmailDomain == dom)
        | none => none
      match byDomain with
      | some d => some d
      | none =>
        match cands.2 with
        | some url =>
          userDeals.find? (fun d =>
            d.url != "" && jsIncludes (lowerStr url).data (lowerStr d.url).data)
        | none => none

/-- Lines 205–212: user key from `deals-<key>@...`, then `findUserByKey`
(the token is never `some ""`, so the JS `userKey ? ... : null` guard is the
`none` case). -/
def lookupUser (users : List User) (recipient : String) : Option User :=
  match tokenOfRecipient recipient with
  | some key => users.find? (fun u => u.key == key)
  | none => none

/-- The inbound webhook handler (`src/index.js` lines 194–238), modelled as a
pure function from the normalized request and the current `messages` array to
the HTTP response and the new array.  The handler pushes exactly one message
(id `length + 1`, `userKey`/`dealId` `null` when unidentified/unmatched) and
answers `200 "OK"` on both the `try` and the `catch` exit. -/
def webhook (users : List User) (deals : List Deal) (msgs : List Msg) (r : Req) :
    (Nat × String) × List Msg :=
  let userKey := (tokenOfRecipient r.recipient).getD ""
  let user := lookupUser users r.recipient
  let matchedDeal : Option Deal :=
    match user with
    | some u => matchDealForUser deals u.key r
    | none => none
  let msg : Msg :=
    { id := msgs.length + 1,
      userKey := user.map (·.key),
      dealId := matchedDeal.map (·.id),
      channel := "email", direction := "in",
      body := jsOr (jsOr r.text r.html) "(no body)",
      meta := [("sender", r.sender), ("subject", r.subject), ("messageId", r.messageId),
               ("recipient", r.recipient), ("userKey", userKey)] }
  ((200, "OK"), msgs ++ [msg])

/-- `GET /inbox/unmatched` (lines 241–247): messages with `dealId === null`,
optionally filtered by `userKey`.  The `createdAt` sort preserves insertion
order and is omitted. -/
def unmatchedInbox (msgs : List Msg) (userKey : Option String) : List Msg :=
  let items := msgs.filter (fun m => m.dealId == none)
  match userKey with
  | some k => if k = "" then items else items.filter (fun m => m.userKey == some k)
  | none => items

/-- `userProxyEmail` (lines 58–61); the Mailgun domain is a parameter. -/
def userProxyEmail (domain userKey : String) : String :=
  "deals-" ++ userKey ++ "@" ++ domain

/-- `POST /deals/:id/messages` (lines 161–191), the `messages` part: `sendOk`
is the outcome of the Mailgun send (`false` = it threw; the handler answers
502 and stores nothing).  Guards: unknown deal → 404, non-email channel →
400, missing `to` → 400 — none of them stores a message. -/
def outbound (domain : String) (deals : List Deal) (msgs : List Msg)
    (dealParam : Nat) (channel toAddr subject body : String) (sendOk : Bool) : List Msg :=
  match deals.find? (fun d => d.id == dealParam) with
  | none => msgs
  | some deal =>
    if channel ≠ "email" then msgs
    else if toAddr = "" then msgs
    else if !sendOk then msgs
    else
      msgs ++ [{ id := msgs.length + 1,
                 userKey := some deal.userKey,
                 dealId := some deal.id,
                 channel := "email", direction := "out",
                 body := jsOr body "",
                 meta := [("to", toAddr), ("subject", jsOr subject "HaggleHub message"),
                          ("replyTo", userProxyEmail domain deal.userKey)] }]

/-- A state-changing operation on the in-memory `messages` array: the inbound
webhook or the outbound deal-messages endpoint. -/
inductive Op where
  | inbound (r : Req)
  | outbound (dealParam : Nat) (channel toAddr subject body : String) (sendOk : Bool)

/-- One request against the server state. -/
def step (domain : String) (users : List User) (deals : List Deal)
    (msgs : List Msg) : Op → List Msg
  | .inbound r => (webhook users deals msgs r).2
  | .outbound dealParam channel toAddr subject body sendOk =>
    outbound domain deals msgs dealParam channel toAddr subject body sendOk

/-- Any request sequence against the initially empty `messages` array. -/
def run (domain : String) (users : List User) (deals : List Deal) (ops : List Op) : List Msg :=
  ops.foldl (step domain users deals) []

/-- Each step either keeps `messages` unchanged or appends one message whose
id is `messages.length + 1`. -/
theorem step_shape (domain : String) (users : List User) (deals : List Deal)
    (msgs : List Msg) (op : Op) :
    step domain users deals msgs op = msgs ∨
    ∃ m : Msg, step domain users deals msgs op = msgs ++ [m] ∧ m.id = msgs.length + 1 := by
  cases op with
  | inbound r => exact Or.inr ⟨_, rfl, rfl⟩
  | outbound dealParam channel toAddr subject body sendOk =>
    simp only [step, outbound]
    split
    · exact Or.inl rfl
    · split
      · exact Or.inl rfl
      · split
        · exact Or.inl rfl
        · split
          · exact Or.inl rfl
          · exact Or.inr ⟨_, rfl, rfl⟩

/-- The id invariant is preserved along any fold of steps. -/
theorem foldl_ids (domain : String) (users : List User) (deals : List Deal) :
    ∀ (ops : List Op) (msgs : List Msg), msgs.map Msg.id = List.range' 1 msgs.length →
      (ops.foldl (step domain users deals) msgs).map Msg.id =
        List.range' 1 (ops.foldl (step domain users deals) msgs).length := by
  intro ops
  induction ops with
  | nil => intro msgs h; simpa using h
  | cons op ops ih =>
    intro msgs h
    simp only [List.foldl_cons]
    apply ih
    rcases step_shape domain users deals msgs op with heq | ⟨m, heq, hid⟩
    · rw [heq]; exact h
    · rw [heq, List.map_append, h, List.length_append]
      simp only [List.map_cons, List.map_nil, List.length_cons, List.length_nil]
      rw [List.range'_concat]
      have : 1 + 1 * msgs.length = m.id := by omega
      rw [this]

end V1

/-- **C10** (`invariants`): every message stored by the webhook or the
deal-messages endpoint gets id `messages.length + 1`, so after any request
sequence the stored ids are exactly `1..n` in order — consecutive, pairwise
distinct and strictly increasing. -/
theorem message_ids_consecutive (domain : String) (users : List V1.User)
    (deals : List V1.Deal) (ops : List V1.Op) :
    (V1.run domain users deals ops).map V1.Msg.id =
      List.range' 1 (V1.run domain users deals ops).length ∧
    List.Pairwise (· < ·) ((V1.run domain users deals ops).map V1.Msg.id) := by
  have h := V1.foldl_ids domain users deals ops [] (by rfl)
  rw [show V1.run domain users deals ops = ops.foldl (V1.step domain users deals) [] from rfl]
  refine ⟨h, ?_⟩
  rw [h]
  exact List.pairwise_lt_range' ..

/-! ## V2 — `src/index.js` second section: token-based deal routing -/

namespace V2

/-- Deal record of the token-based variant (`src/index.js` lines 301–311). -/
structure Deal where
  id : Nat
  key : String
  dealerName : String
  vehicleTitle : String
  url : String
  status : String
deriving DecidableEq

/-- Message record (`{ id, dealId, channel, direction, body, meta, createdAt }`). -/
structure Msg where
  id : Nat
  dealId : Nat
  channel : String
  direction : String
  body : String
  meta : List (String × String)
deriving DecidableEq

/-- The inbound webhook (`src/index.js` lines 432–478): token lookup, then
`if (!deal) deal = deals[0]` — the MVP "nothing gets lost" fallback.  With an
empty `deals` array, `deals[0]` is `undefined`, `deal.id` throws, and the
`catch` still answers `200 "OK"` with nothing stored. -/
def webhook (deals : List Deal) (msgs : List Msg) (r : V1.Req) :
    (Nat × String) × List Msg :=
  let token := (tokenOfRecipient r.recipient).getD ""
  let byToken : Option Deal :=
    if token ≠ "" then deals.find? (fun d => d.key == token) else none
  let newMsgs :=
    match byToken.orElse (fun _ => deals.head?) with
    | some deal =>
      msgs ++ [{ id := msgs.length + 1, dealId := deal.id, channel := "email",
                 direction := "in", body := jsOr (jsOr r.text r.html) "(no body)",
                 meta := [("sender", r.sender), ("subject", r.subject),
                          ("messageId", r.messageId), ("recipient", r.recipient),
                          ("token", token)] }]
    | none => msgs
  ((200, "OK"), newMsgs)

end V2

/-! ## P1 — `src/unnamed/part_001`: the raw-body webhook -/

namespace P1

/-- Inbox record of `src/unnamed/part_001` (`{ id, userKey, from, to,
subject, text, html, ts }`); the generated id and timestamp are runtime
inputs of the model. -/
structure Msg where
  id : String
  userKey : String
  fromAddr : String
  toAddr : String
  subject : String
  text : String
  html : String
  ts : Nat
deriving DecidableEq

/-- Match `/deals-([^@]+)@/i` at the head: `deals-` (any case), a nonempty
`@`-free run, then `@`. -/
def dealsTokenAt (cs : List Char) : Option (List Char) :=
  match cs with
  | c1 :: c2 :: c3 :: c4 :: c5 :: c6 :: rest =>
    if lcEq c1 'd' && lcEq c2 'e' && lcEq c3 'a' && lcEq c4 'l' && lcEq c5 's' && c6 == '-' then
      let run := rest.takeWhile (fun c => c != '@')
      if run ≠ [] ∧ (rest.drop run.length).head? = some '@' then some run else none
    else none
  | _ => none

/-- Leftmost match of the unanchored token regex. -/
def findDealsTokenAux : Nat → List Char → Option (List Char)
  | 0, _ => none
  | _ + 1, [] => none
  | fuel + 1, c :: rest =>
    match dealsTokenAt (c :: rest) with
    | some t => some t
    | none => findDealsTokenAux fuel rest

/-- `let m = /deals-([^@]+)@/i.exec(to); if (m) userKey = m[1]`. -/
def extractUserKey (toAddr : String) : String :=
  ((findDealsTokenAux (toAddr.data.length + 1) toAddr.data).map String.mk).getD ""

/-- The webhook handler of `src/unnamed/part_001` lines 65–92 (of its server
section): `parsed` is the outcome of body parsing — `JSON.parse` of the raw
body for a JSON content type, else `URLSearchParams`; `none` means the parse
threw.  On success the message is prepended (`unshift`) to the inbox and the
answer is `200` with a JSON `ok: true`; the `catch` answers `500`. -/
def webhook (parsed : Option (List (String × String))) (newId : String) (now : Nat)
    (inbox : List Msg) : (Nat × Bool) × List Msg :=
  match parsed with
  | none => ((500, false), inbox)
  | some payload =>
    let fromA := jsOr (jsOr (jsGet payload "from") (jsGet payload "sender")) (jsGet payload "From")
    let toA := jsOr (jsOr (jsGet payload "recipient") (jsGet payload "to")) (jsGet payload "To")
    let subject := jsGet payload "subject"
    let text := jsOr (jsGet payload "body-plain") (jsGet payload "text")
    let html := jsOr (jsGet payload "body-html") (jsGet payload "html")
    let userKey := extractUserKey toA
    let msg : Msg := ⟨newId, userKey, fromA, toA, subject, text, html, now⟩
    ((200, true), msg :: inbox)

end P1

/-- **C2 counterexample** (`error_handling`): the part_001 webhook handler
answers HTTP 500 — not 200 — for a request whose body fails to parse (for
example a JSON content type with the malformed body `"{"`). -/
theorem webhook_parse_failure_returns_500 :
    (P1.webhook none "msg_1" 0 []).1.1 = 500 ∧ (P1.webhook none "msg_1" 0 []).1.1 ≠ 200 :=
  ⟨rfl, by decide⟩

/-- **C2 amended**: the index.js webhook handlers answer `200 "OK"` for every
request and every store state, on both the success and the catch path — no
extraction/matching/storage failure reaches the response; the part_001
variant answers 200 (with a JSON acknowledgment) whenever its body parses,
and 500 only when parsing throws. -/
theorem webhook_ack_status (users : List V1.User) (deals : List V1.Deal)
    (msgs : List V1.Msg) (r : V1.Req) (deals2 : List V2.Deal) (msgs2 : List V2.Msg)
    (payload : List (String × String)) (newId : String) (now : Nat) (inbox : List P1.Msg) :
    (V1.webhook users deals msgs r).1 = (200, "OK") ∧
    (V2.webhook deals2 msgs2 r).1 = (200, "OK") ∧
    (P1.webhook (some payload) newId now inbox).1 = (200, true) :=
  ⟨rfl, rfl, rfl⟩

/-- The deal array literal of the V2 variant (`src/index.js` lines 301–311). -/
def v2deals : List V2.Deal :=
  [{ id := 1, key := "p8j5o5u", dealerName := "Test Dealer", vehicleTitle := "Sample Car",
     url := "", status := "open" }]

/-- **C6 counterexample** (`functional_correctness`): in the V2 variant — the
code the claim cites — a message whose recipient carries no routing token
(so nothing matched it) is attached to `deals[0]` (dealId 1), not stored
with a null deal binding. -/
theorem unmatched_attached_to_first_deal :
    tokenOfRecipient "random@externaldomain.com" = none ∧
    ((V2.webhook v2deals []
        { recipient := "random@externaldomain.com", sender := "bob@externaldomain.com",
          subject := "hello", text := "just words", html := "",
          messageId := "m1" }).2.map V2.Msg.dealId) = [1] := by
  exact ⟨by decide, by decide⟩

/-- **C6 amended**: in the user-token variant (`src/index.js` first section,
also cited by the claim), a message with no identifiable user is stored with
`userKey = null` and `dealId = null`, appears in the unmatched inbox, and is
never dropped; the V2 variant instead deliberately attaches unmatched
messages to the first deal. -/
theorem unmatched_stored_with_null_deal (users : List V1.User) (deals : List V1.Deal)
    (msgs : List V1.Msg) (r : V1.Req)
    (huser : V1.lookupUser users r.recipient = none) :
    ∃ m : V1.Msg,
      (V1.webhook users deals msgs r).2 = msgs ++ [m] ∧
      m.userKey = none ∧ m.dealId = none ∧ m.id = msgs.length + 1 ∧
      (V1.webhook users deals msgs r).2.length = msgs.length + 1 ∧
      m ∈ V1.unmatchedInbox ((V1.webhook users deals msgs r).2) none := by
  refine ⟨_, rfl, ?_, ?_, rfl, ?_, ?_⟩
  · show (V1.lookupUser users r.recipient).map (·.key) = none
    rw [huser]
    rfl
  · show (match V1.lookupUser users r.recipient with
      | some u => V1.matchDealForUser deals u.key r
      | none => none).map V1.Deal.id = none
    rw [huser]
    rfl
  · simp [V1.webhook]
  · simp only [V1.unmatchedInbox]
    rw [List.mem_filter]
    constructor
    · show _ ∈ (V1.webhook users deals msgs r).2
      exact List.mem_append_right msgs (List.mem_singleton.mpr rfl)
    · show ((match V1.lookupUser users r.recipient with
        | some u => V1.matchDealForUser deals u.key r
        | none => none).map V1.Deal.id == none) = true
      rw [huser]
      rfl

/-- The request of the C6 witness: a recipient with no alias token. -/
def c6Req : V1.Req :=
  { recipient := "random@externaldomain.com", sender := "bob@externaldomain.com",
    subject := "hello", text := "just words", html := "", messageId := "m1" }

/-- Witness for the amended C6 at a concrete unidentifiable request. -/
theorem unmatched_stored_with_null_deal_witness :
    ∃ m : V1.Msg,
      (V1.webhook [] [] [] c6Req).2 = [] ++ [m] ∧
      m.userKey = none ∧ m.dealId = none ∧ m.id = List.length ([] : List V1.Msg) + 1 ∧
      (V1.webhook [] [] [] c6Req).2.length = List.length ([] : List V1.Msg) + 1 ∧
      m ∈ V1.unmatchedInbox ((V1.webhook [] [] [] c6Req).2) none :=
  unmatched_stored_with_null_deal [] [] [] c6Req (by decide)

/-! ## P2 — `src/unnamed/part_002`: direct-HTTP dispatcher and identity extractor -/

namespace P2

/-- `.+$` of the alias regex: nonempty and free of line terminators (`.`
does not match them and `$` is end of input). -/
def dotPlus (l : List Char) : Bool := !l.isEmpty && l.all (fun c => !isLineTerminator c)

/-- Match `/^deals?-(.+)$/i` and return the capture: `deal` in any case,
an optional `s`, a `-`, then the nonempty remainder.  When the greedy `s?`
path fails, backtracking cannot succeed (the character after `deal` would
have to be both `s` and `-`), so the match is deterministic. -/
def dealPrefixMatch (cs : List Char) : Option (List Char) :=
  match cs with
  | c1 :: c2 :: c3 :: c4 :: c5 :: rest1 =>
    if lcEq c1 'd' && lcEq c2 'e' && lcEq c3 'a' && lcEq c4 'l' then
      if lcEq c5 's' then
        match rest1 with
        | c6 :: rest2 => if c6 == '-' && dotPlus rest2 then some rest2 else none
        | [] => none
      else if c5 == '-' then
        if dotPlus rest1 then some rest1 else none
      else none
    else none
  | _ => none

/-- `extractTokenFromLocal` of `src/unnamed/part_002` lines 19–23 (identical
in part_003/006/008): empty local-part → `""`; matched → the capture group;
not matched → the local-part verbatim. -/
def extractTokenFromLocal (localPart : String) : String :=
  if localPart = "" then ""
  else
    match dealPrefixMatch localPart.data with
    | some rest => String.mk rest
    | none => localPart

/-- Every successful alias match satisfies the `.+$` condition. -/
theorem dealPrefixMatch_dotPlus (cs rest : List Char)
    (h : dealPrefixMatch cs = some rest) : dotPlus rest = true := by
  unfold dealPrefixMatch at h
  split at h
  · split at h
    · split at h
      · split at h
        · split at h
          · rename_i hcond
            cases h
            rw [Bool.and_eq_true] at hcond
            exact hcond.2
          · exact Option.noConfusion h
        · exact Option.noConfusion h
      · split at h
        · split at h
          · rename_i hcond
            cases h
            exact hcond
          · exact Option.noConfusion h
        · exact Option.noConfusion h
    · exact Option.noConfusion h
  · exact Option.noConfusion h

/-- A fetch `Response`: HTTP status and the body text/JSON it resolves to. -/
structure HttpResp where
  status : Nat
  body : String
deriving DecidableEq

/-- JS `response.ok`: status in 200–299. -/
def respOk (r : HttpResp) : Bool := 200 ≤ r.status && r.status < 300

/-- `callBase44Function` of `src/unnamed/part_002` lines 29–70, over the
sequence of responses the network would hand to successive fetch calls (the
head answers the first fetch; `[]` means the fetch itself failed).  Returns
the outcome and the number of fetch calls performed: the source makes
exactly one `fetch`, throws on any non-ok status — 4xx and 5xx alike, after
reading the error body — and contains no retry and no delay. -/
def callBase44Function (hasApiKey hasProjectId : Bool) (responses : List HttpResp) :
    Except String String × Nat :=
  if !hasApiKey then (.error "CRITICAL: Missing BASE44_API_KEY environment variable.", 0)
  else if !hasProjectId then
    (.error "CRITICAL: Missing BASE44_PROJECT_ID environment variable.", 0)
  else
    match responses with
    | [] => (.error "Network-level error (fetch failed) when trying to reach Base44 API.", 1)
    | r :: _ =>
      ((if respOk r then .ok r.body
        else .error ("Base44 API returned an error. Status: " ++ toString r.status ++
          ". Body: " ++ r.body)), 1)

end P2

/-- **C3 counterexample** (`error_handling`): after a 500 response the
dispatcher makes no second forward call — exactly one fetch happens (not
two), even though the retry the claim describes would have succeeded, the
next response being a 200. -/
theorem dispatcher_retry_counterexample :
    (P2.callBase44Function true true [⟨500, "boom"⟩, ⟨200, "ok"⟩]).2 = 1 ∧
    (P2.callBase44Function true true [⟨500, "boom"⟩, ⟨200, "ok"⟩]).2 ≠ 2 ∧
    ∃ e, (P2.callBase44Function true true [⟨500, "boom"⟩, ⟨200, "ok"⟩]).1 =
      Except.error e :=
  ⟨rfl, by decide, ⟨_, rfl⟩⟩

/-- **C3 amended**: the dispatcher performs exactly one forward call per
dispatch and never retries; every non-2xx response — 5xx and 4xx alike — is
terminal, producing an error that the webhook handler only logs. -/
theorem dispatcher_single_attempt (r : P2.HttpResp) (rs : List P2.HttpResp) :
    (P2.callBase44Function true true (r :: rs)).2 = 1 ∧
    (P2.respOk r = false →
      ∃ e, (P2.callBase44Function true true (r :: rs)).1 = Except.error e) := by
  constructor
  · rfl
  · intro hr
    refine ⟨"Base44 API returned an error. Status: " ++ toString r.status ++
      ". Body: " ++ r.body, ?_⟩
    show (if P2.respOk r then (Except.ok r.body : Except String String)
      else Except.error ("Base44 API returned an error. Status: " ++ toString r.status ++
        ". Body: " ++ r.body)) = _
    rw [hr]
    rfl

/-- Witness for the amended C3: a 400 response — one call, terminal error. -/
theorem dispatcher_single_attempt_witness :
    (P2.callBase44Function true true [⟨400, "nope"⟩]).2 = 1 ∧
    (∃ e, (P2.callBase44Function true true [⟨400, "nope"⟩]).1 = Except.error e) :=
  ⟨(dispatcher_single_attempt ⟨400, "nope"⟩ []).1,
   (dispatcher_single_attempt ⟨400, "nope"⟩ []).2 (by decide)⟩

/-- **C5** (`functional_correctness`): for every recipient local-part, the
Identity Extractor returns the remainder after the alias marker
(`deal-`/`deals-`, case-insensitively) when the local-part matches the
pattern, the full local-part verbatim when it does not, and never an empty
token — nor an error — for a non-empty local-part. -/
theorem routing_token_extraction (localPart : String) (h : localPart ≠ "") :
    (∀ rest, P2.dealPrefixMatch localPart.data = some rest →
      P2.extractTokenFromLocal localPart = String.mk rest ∧ rest ≠ []) ∧
    (P2.dealPrefixMatch localPart.data = none →
      P2.extractTokenFromLocal localPart = localPart) ∧
    P2.extractTokenFromLocal localPart ≠ "" := by
  have hsome : ∀ rest, P2.dealPrefixMatch localPart.data = some rest →
      P2.extractTokenFromLocal localPart = String.mk rest ∧ rest ≠ [] := by
    intro rest hr
    have hdp := P2.dealPrefixMatch_dotPlus localPart.data rest hr
    have hne : rest ≠ [] := by
      intro hnil
      rw [hnil] at hdp
      exact absurd hdp (by decide)
    refine ⟨?_, hne⟩
    unfold P2.extractTokenFromLocal
    rw [if_neg h, hr]
  have hnone : P2.dealPrefixMatch localPart.data = none →
      P2.extractTokenFromLocal localPart = localPart := by
    intro hr
    unfold P2.extractTokenFromLocal
    rw [if_neg h, hr]
  refine ⟨hsome, hnone, ?_⟩
  cases hm : P2.dealPrefixMatch localPart.data with
  | some rest =>
    obtain ⟨heq, hne⟩ := hsome rest hm
    rw [heq]
    intro hcon
    exact hne (by simpa using congrArg String.data hcon)
  | none =>
    rw [hnone hm]
    exact h

/-- Witness for C5: `deals-ab12cd` → `ab12cd`, and an un-prefixed local-part
comes back verbatim and non-empty. -/
theorem routing_token_extraction_witness :
    P2.extractTokenFromLocal "deals-ab12cd" = String.mk "ab12cd".data ∧
    P2.extractTokenFromLocal "support" = "support" ∧
    P2.extractTokenFromLocal "support" ≠ "" :=
  ⟨((routing_token_extraction "deals-ab12cd" (by decide)).1 "ab12cd".data (by decide)).1,
   (routing_token_extraction "support" (by decide)).2.1 (by decide),
   (routing_token_extraction "support" (by decide)).2.2⟩

/-! ## Dealer-name extraction — the regex
`/from\s+([A-Za-z0-9&.,(apostrophes)\-\s]+?)(?:[\.\n\r]|$)/i` of
`src/server.js` lines 119–126 and `src/index.js` lines 538–553. -/

/-- The capture class: letters, digits, `&`, `.`, `,`, both apostrophes,
`-` and whitespace. -/
def isNameClass (c : Char) : Bool :=
  c.isAlpha || c.isDigit || c == '&' || c == '.' || c == ',' || c == '\'' ||
  c == '’' || c == '-' || isJsWhitespace c

/-- The terminator group `(?:[\.\n\r]|$)`; the `$` case is end of input. -/
def isNameTerm (c : Char) : Bool := c == '.' || c == '\n' || c == '\r'

/-- The lazy tail of `([...]+?)` after its first character: stop at the first
terminator (or end of input), extend through class characters, fail on
anything else. -/
def nameCaptureAux (acc : List Char) : List Char → Option (List Char)
  | [] => some acc.reverse
  | d :: rest =>
    if isNameTerm d then some acc.reverse
    else if isNameClass d then nameCaptureAux (d :: acc) rest
    else none

/-- The lazy capture `([...]+?)(?:[\.\n\r]|$)`: at least one class
character, then the shortest extension whose next character terminates. -/
def nameCapture : List Char → Option (List Char)
  | [] => none
  | c :: rest => if isNameClass c then nameCaptureAux [c] rest else none

/-- Backtracking of the greedy `\s+`: try the capture start after `w`
whitespace characters, for `w` from the full run length down to one. -/
def dealerTryW (rest : List Char) : Nat → Option (List Char)
  | 0 => none
  | w + 1 =>
    match nameCapture (rest.drop (w + 1)) with
    | some cap => some cap
    | none => dealerTryW rest w

/-- Match the regex right after a literal `from`: at least one whitespace,
then the lazy capture. -/
def dealerNameAfterFrom (rest : List Char) : Option (List Char) :=
  dealerTryW rest (rest.takeWhile isJsWhitespace).length

/-- Leftmost occurrence of `from` (any case) from which the rest of the
regex matches. -/
def findDealerNameAux : Nat → List Char → Option (List Char)
  | 0, _ => none
  | _ + 1, [] => none
  | fuel + 1, c :: rest =>
    match
      (match c :: rest with
       | c1 :: c2 :: c3 :: c4 :: rest4 =>
         if lcEq c1 'f' && lcEq c2 'r' && lcEq c3 'o' && lcEq c4 'm' then
           dealerNameAfterFrom rest4
         else none
       | _ => none) with
    | some cap => some cap
    | none => findDealerNameAux fuel rest

/-- `extractDealerName` of `src/server.js` lines 119–126: trim the capture,
drop the pronoun-like results `me`/`us` (case-insensitively), cap at 80
characters; `""` when there is no text or no match. -/
def extractDealerName (text : String) : String :=
  if text = "" then ""
  else
    match findDealerNameAux (text.data.length + 1) text.data with
    | none => ""
    | some cap =>
      let name := jsTrim (String.mk cap)
      if lowerStr name = "me" ∨ lowerStr name = "us" then ""
      else String.mk (name.data.take 80)

/-- `extractDealerName` of `src/index.js` lines 538–553 (third section):
same regex and filtering, but `null` (`none`) instead of `""`. -/
def extractDealerNameOpt (text : String) : Option String :=
  if text = "" then none
  else
    match findDealerNameAux (text.data.length + 1) text.data with
    | none => none
    | some cap =>
      let name := jsTrim (String.mk cap)
      if lowerStr name = "me" ∨ lowerStr name = "us" then none
      else some (String.mk (name.data.take 80))

/-! ## Server — `src/server.js` second section: the messageProcessor variant -/

namespace Server

/-- `splitRecipient` of `src/server.js` lines 88–96. -/
def splitRecipient (recipient : String) : String × String :=
  if recipient ≠ "" ∧ recipient.data.contains '@' then
    let parts := splitList '@' recipient.data
    (jsTrim (String.mk (parts.headD [])), jsTrim (String.mk ((parts[1]?).getD [])))
  else ("", "")

/-- `trimBody` of `src/server.js` lines 97–101: `str.length > maxLen ?
str.slice(0, maxLen) : str`, with `""` for a falsy input. -/
def trimBody (s : String) (maxLen : Nat) : String :=
  if s = "" then ""
  else if maxLen < s.length then String.mk (s.data.take maxLen)
  else s

/-- After a case-insensitive `<br`: `\s*`, an optional `/`, then `>`. -/
def brTagEnd (l : List Char) : Option (List Char) :=
  let rest := l.drop (l.takeWhile isJsWhitespace).length
  match rest with
  | '/' :: '>' :: r => some r
  | '>' :: r => some r
  | _ => none

/-- `.replace(/<br\s*\/?>/gi, "\n")`. -/
def replaceBr : Nat → List Char → List Char
  | 0, l => l
  | _ + 1, [] => []
  | fuel + 1, c :: rest =>
    match c :: rest with
    | c1 :: c2 :: c3 :: rest3 =>
      if c1 == '<' && lcEq c2 'b' && lcEq c3 'r' then
        match brTagEnd rest3 with
        | some r => '\n' :: replaceBr fuel r
        | none => c :: replaceBr fuel rest
      else c :: replaceBr fuel rest
    | _ => c :: replaceBr fuel rest

/-- `.replace(/<\/p>/gi, "\n")`. -/
def replacePClose : Nat → List Char → List Char
  | 0, l => l
  | _ + 1, [] => []
  | fuel + 1, c :: rest =>
    match c :: rest with
    | '<' :: '/' :: p :: '>' :: r =>
      if lcEq p 'p' then '\n' :: replacePClose fuel r
      else c :: replacePClose fuel rest
    | _ => c :: replacePClose fuel rest

/-- `.replace(/<[^>]+>/g, "")`: drop each `<`, a nonempty `>`-free run, `>`. -/
def stripTags : Nat → List Char → List Char
  | 0, l => l
  | _ + 1, [] => []
  | fuel + 1, c :: rest =>
    if c == '<' then
      let run := rest.takeWhile (fun d => d != '>')
      if run ≠ [] ∧ ((rest.drop run.length).head? = some '>') then
        stripTags fuel (rest.drop (run.length + 1))
      else c :: stripTags fuel rest
    else c :: stripTags fuel rest

/-- Literal global replace, for the entity substitutions. -/
def replaceLit (pat rep : List Char) : Nat → List Char → List Char
  | 0, l => l
  | _ + 1, [] => []
  | fuel + 1, c :: rest =>
    if ((c :: rest).take pat.length == pat) && !pat.isEmpty then
      rep ++ replaceLit pat rep fuel ((c :: rest).drop pat.length)
    else c :: replaceLit pat rep fuel rest

/-- `stripHtml` of `src/server.js` lines 102–112: the full replace chain —
`<br…>` and `</p>` to newlines, tags removed, the four entities decoded. -/
def stripHtml (html : String) : String :=
  if html = "" then ""
  else
    let l0 := html.data
    let l1 := replaceBr (l0.length + 1) l0
    let l2 := replacePClose (l1.length + 1) l1
    let l3 := stripTags (l2.length + 1) l2
    let l4 := replaceLit "&nbsp;".data " ".data (l3.length + 1) l3
    let l5 := replaceLit "&amp;".data "&".data (l4.length + 1) l4
    let l6 := replaceLit "&lt;".data "<".data (l5.length + 1) l5
    let l7 := replaceLit "&gt;".data ">".data (l6.length + 1) l6
    String.mk l7

/-- Normalized webhook fields (`src/server.js` lines 131–136, identical in
the V3 section of `src/index.js`). -/
structure Req where
  sender : String
  subject : String
  textBody : String
  htmlBody : String
  recipient : String
  messageId : String
deriving DecidableEq

/-- The content signal extraction runs on (`src/server.js` line 144):
trimmed plain text, else the stripped trimmed HTML, else the placeholder. -/
def content (textBody htmlBody : String) (maxLen : Nat) : String :=
  jsOr (jsOr (trimBody textBody maxLen) (stripHtml (trimBody htmlBody maxLen))) "(no content)"

/-- The `functionPayload` handed to the Base44 `messageProcessor` function
(`src/server.js` lines 175–186).  `raw` models the `raw_data: req.body`
debug field; `maxLen` is `Number(process.env.MAX_BODY_LENGTH || 4000)`. -/
structure Payload where
  sender : String
  subject : String
  recipient : String
  recipientLocal : String
  vin : String
  dealerName : String
  textBody : String
  htmlBody : String
  content : String
  raw : Req
deriving DecidableEq

/-- Lines 140–148 and 175–186 of `src/server.js`: truncate both bodies,
build the content, extract the signals from it, assemble the payload. -/
def functionPayload (r : Req) (maxLen : Nat) : Payload :=
  let trimmedText := trimBody r.textBody maxLen
  let trimmedHtml := trimBody r.htmlBody maxLen
  let c := jsOr (jsOr trimmedText (stripHtml trimmedHtml)) "(no content)"
  { sender := r.sender, subject := r.subject, recipient := r.recipient,
    recipientLocal := (splitRecipient r.recipient).1,
    vin := extractVIN c, dealerName := extractDealerName c,
    textBody := trimmedText, htmlBody := trimmedHtml, content := c, raw := r }

/-- The trimmed body never exceeds the configured maximum. -/
theorem trimBody_length (s : String) (maxLen : Nat) :
    (trimBody s maxLen).length ≤ maxLen := by
  unfold trimBody
  split
  · exact Nat.zero_le maxLen
  · split
    · show (s.data.take maxLen).length ≤ maxLen
      simp [List.length_take]
    · rename_i h1 h2
      omega

end Server

/-! ## V3 — `src/index.js` third section: Base44 multi-identifier matching -/

namespace V3

/-- `[a-z0-9_-]` under `/i`. -/
def isAliasTokChar (c : Char) : Bool :=
  ('a' ≤ c && c ≤ 'z') || ('A' ≤ c && c ≤ 'Z') || c.isDigit || c == '_' || c == '-'

/-- Match `/^deals?-([a-z0-9_-]+)$/i`: `deal` in any case, an optional `s`,
`-`, then a nonempty run of token characters reaching the end. -/
def aliasTokenMatch (cs : List Char) : Option (List Char) :=
  match cs with
  | c1 :: c2 :: c3 :: c4 :: c5 :: rest1 =>
    if lcEq c1 'd' && lcEq c2 'e' && lcEq c3 'a' && lcEq c4 'l' then
      if lcEq c5 's' then
        match rest1 with
        | '-' :: rest2 =>
          if !rest2.isEmpty && rest2.all isAliasTokChar then some rest2 else none
        | _ => none
      else if c5 == '-' then
        if !rest1.isEmpty && rest1.all isAliasTokChar then some rest1 else none
      else none
    else none
  | _ => none

/-- `extractAliasToken` of `src/index.js` lines 513–524 (third section):
the local part is trimmed and lowercased before the anchored alias regex;
`null` (`none`) when it does not match. -/
def extractAliasToken (recipient : String) : Option String :=
  if recipient = "" then none
  else
    let localPart := jsTrim (String.mk ((splitList '@' recipient.data).headD []))
    (aliasTokenMatch (lowerStr localPart).data).map String.mk

/-- The payload forwarded to Base44 `Message.create` (`src/index.js` lines
694–707): `textBody`/`htmlBody` are the raw, untruncated bodies, and the
signals are extracted from the raw `textBody || htmlBody || ""` (lines
656–659) — this variant has no `trimBody`. -/
structure Payload where
  channel : String
  direction : String
  senderEmail : String
  recipientEmail : String
  subject : String
  textBody : String
  htmlBody : String
  externalId : String
  aliasToken : Option String
  vin : Option String
  dealerName : Option String

/-- Lines 636–659 and 694–707 of `src/index.js` (third section). -/
def payload (r : Server.Req) : Payload :=
  let hay := jsOr (jsOr r.textBody r.htmlBody) ""
  { channel := "email", direction := "in", senderEmail := r.sender,
    recipientEmail := r.recipient, subject := r.subject,
    textBody := jsOr r.textBody "", htmlBody := jsOr r.htmlBody "",
    externalId := r.messageId,
    aliasToken := extractAliasToken r.recipient,
    vin := extractVINOpt hay,
    dealerName := extractDealerNameOpt hay }

end V3

/-- A 4001-character plain-text body. -/
def longBody : String := String.mk (List.replicate 4001 'a')

/-- **C8 counterexample** (`invariants`): the V3 variant — cited by the claim
at `src/index.js` lines 655–659 — performs no truncation: a 4001-character
body is handed downstream whole, exceeding the 4000-character default
maximum that the server.js variant configures (`MAX_BODY_LENGTH || 4000`),
and signal extraction reads that raw body. -/
def c8Req : Server.Req :=
  { sender := "s@d.com", subject := "subj", textBody := longBody,
    htmlBody := "", recipient := "deals-x@h.app", messageId := "m1" }

theorem raw_body_forwarded_untruncated :
    (V3.payload c8Req).textBody.length = 4001 ∧ 4000 < 4001 := by
  have hlen : longBody.length = 4001 := by
    show (List.replicate 4001 'a').length = 4001
    rw [List.length_replicate]
  have hne : longBody ≠ "" := by
    intro h
    rw [h] at hlen
    exact absurd hlen (by decide)
  refine ⟨?_, by omega⟩
  show (jsOr c8Req.textBody "").length = 4001
  show (jsOr longBody "").length = 4001
  unfold jsOr
  rw [if_neg hne]
  exact hlen

/-- **C8 amended**: in the server.js variant the body fields handed
downstream are truncated to the configured maximum, and signal extraction
runs only on content built from the truncated bodies (the `raw_data` debug
field aside); the V3 variant of `src/index.js` performs no truncation and
extracts from the raw body. -/
theorem truncation_before_extraction (r : Server.Req) (maxLen : Nat) :
    (Server.functionPayload r maxLen).textBody.length ≤ maxLen ∧
    (Server.functionPayload r maxLen).htmlBody.length ≤ maxLen ∧
    (Server.functionPayload r maxLen).vin =
      extractVIN (Server.content r.textBody r.htmlBody maxLen) ∧
    (Server.functionPayload r maxLen).dealerName =
      extractDealerName (Server.content r.textBody r.htmlBody maxLen) :=
  ⟨Server.trimBody_length r.textBody maxLen, Server.trimBody_length r.htmlBody maxLen,
   rfl, rfl⟩

/-- **C9** (`functional_correctness`): when both bodies are empty or absent,
the index.js webhook stores the non-empty placeholder `"(no body)"` as the
message body, the server.js content is the non-empty placeholder
`"(no content)"`, and the server.js signal extraction runs on exactly that
placeholder text. -/
theorem empty_body_placeholder (users : List V1.User) (deals : List V1.Deal)
    (msgs : List V1.Msg) (r : V1.Req) (sr : Server.Req) (maxLen : Nat)
    (h1 : r.text = "") (h2 : r.html = "")
    (h3 : sr.textBody = "") (h4 : sr.htmlBody = "") :
    (∃ m : V1.Msg, (V1.webhook users deals msgs r).2 = msgs ++ [m] ∧
      m.body = "(no body)") ∧
    Server.content sr.textBody sr.htmlBody maxLen = "(no content)" ∧
    (Server.functionPayload sr maxLen).content = "(no content)" ∧
    (Server.functionPayload sr maxLen).vin = extractVIN "(no content)" ∧
    (Server.functionPayload sr maxLen).dealerName = extractDealerName "(no content)" ∧
    ("(no body)" : String) ≠ "" ∧ ("(no content)" : String) ≠ "" := by
  refine ⟨⟨_, rfl, ?_⟩, ?_, ?_, ?_, ?_, by decide, by decide⟩
  · show jsOr (jsOr r.text r.html) "(no body)" = "(no body)"
    rw [h1, h2]
    rfl
  · unfold Server.content
    rw [h3, h4]
    rfl
  · show jsOr (jsOr (Server.trimBody sr.textBody maxLen)
      (Server.stripHtml (Server.trimBody sr.htmlBody maxLen))) "(no content)" = "(no content)"
    rw [h3, h4]
    rfl
  · show extractVIN (jsOr (jsOr (Server.trimBody sr.textBody maxLen)
      (Server.stripHtml (Server.trimBody sr.htmlBody maxLen))) "(no content)") =
      extractVIN "(no content)"
    rw [h3, h4]
    rfl
  · show extractDealerName (jsOr (jsOr (Server.trimBody sr.textBody maxLen)
      (Server.stripHtml (Server.trimBody sr.htmlBody maxLen))) "(no content)") =
      extractDealerName "(no content)"
    rw [h3, h4]
    rfl

/-- The empty-body webhook requests of the C9 witness. -/
def c9Req : V1.Req :=
  { recipient := "deals-p8j5o5u@hagglehub.app", sender := "dealer@dealer.com",
    subject := "hello", text := "", html := "", messageId := "m9" }

def c9ServerReq : Server.Req :=
  { sender := "dealer@dealer.com", subject := "hello", textBody := "", htmlBody := "",
    recipient := "deals-p8j5o5u@hagglehub.app", messageId := "m9" }

/-- Witness for C9 at a concrete empty-body request. -/
theorem empty_body_placeholder_witness :
    (∃ m : V1.Msg, (V1.webhook [] [] [] c9Req).2 = [] ++ [m] ∧
      m.body = "(no body)") ∧
    Server.content c9ServerReq.textBody c9ServerReq.htmlBody 4000 = "(no content)" ∧
    (Server.functionPayload c9ServerReq 4000).content = "(no content)" ∧
    (Server.functionPayload c9ServerReq 4000).vin = extractVIN "(no content)" ∧
    (Server.functionPayload c9ServerReq 4000).dealerName = extractDealerName "(no content)" ∧
    ("(no body)" : String) ≠ "" ∧ ("(no content)" : String) ≠ "" :=
  empty_body_placeholder [] [] [] c9Req c9ServerReq 4000 rfl rfl rfl rfl

/-! ## P6 and P8 — the fallback-deal variants -/

namespace P6

/-- The user/fallback information `findUserAndFallbackDeal` returns when the
user exists and has a configured fallback deal (`src/unnamed/part_006`
lines 31–43). -/
structure FallbackInfo where
  userId : String
  dealId : String
  dealerId : String
deriving DecidableEq

/-- The function payload of `src/unnamed/part_006` lines 80–99. -/
structure Payload where
  sender : String
  subject : String
  content : String
  vin : String
  dealer_id : String
  user_id : String
  deal_id : Option String
deriving DecidableEq

/-- Lines 80–99: when a VIN was extracted, `deal_id` is left `null` so the
downstream function can match it; with no VIN the fallback deal id is
assigned. -/
def functionPayload (sender subject content : String) (fb : FallbackInfo) : Payload :=
  let vin := extractVIN content
  { sender := sender, subject := subject, content := content, vin := vin,
    dealer_id := fb.dealerId, user_id := fb.userId,
    deal_id := if vin ≠ "" then none else some fb.dealId }

end P6

namespace P8

/-- User entity fields used by `src/unnamed/part_008` (`fallback_deal_id`
absent or null is `none`). -/
structure User where
  id : String
  fallback_deal_id : Option String
deriving DecidableEq

/-- `user.fallback_deal_id || null`: an absent value or an empty string is
falsy and becomes `null`. -/
def jsOrNull (o : Option String) : Option String :=
  match o with
  | some s => if s = "" then none else some s
  | none => none

/-- The `messageData` of `src/unnamed/part_008` lines 127–137. -/
structure MessageData where
  deal_id : Option String
  dealer_id : String
  direction : String
  channel : String
  subject : String
  content : String
  is_read : Bool
deriving DecidableEq

/-- Lines 127–137: `deal_id: user.fallback_deal_id || null` — the fallback
deal when configured, `null` (the unmatched inbox state) when not. -/
def messageData (u : User) (dealerId subject content : String) : MessageData :=
  { deal_id := jsOrNull u.fallback_deal_id, dealer_id := dealerId,
    direction := "inbound", channel := "email", subject := subject,
    content := content, is_read := false }

end P8

/-- **C7** (`functional_correctness`): with a user identified but VIN
extraction failing, part_006 attaches the forwarded record to the user's
fallback deal, and part_008 attaches the fallback deal when one is
configured and leaves the deal binding null — the inbox state — when not. -/
theorem fallback_deal_policy (sender subject content : String) (fb : P6.FallbackInfo)
    (u : P8.User) (dealerId subj2 content2 : String) :
    (extractVIN content = "" →
      (P6.functionPayload sender subject content fb).deal_id = some fb.dealId) ∧
    (∀ d, u.fallback_deal_id = some d → d ≠ "" →
      (P8.messageData u dealerId subj2 content2).deal_id = some d) ∧
    (u.fallback_deal_id = none →
      (P8.messageData u dealerId subj2 content2).deal_id = none) := by
  refine ⟨?_, ?_, ?_⟩
  · intro hv
    show (if extractVIN content ≠ "" then none else some fb.dealId) = some fb.dealId
    rw [if_neg (by simp [hv])]
  · intro d hd hne
    show P8.jsOrNull u.fallback_deal_id = some d
    rw [hd]
    show (if d = "" then none else some d) = some d
    rw [if_neg hne]
  · intro hd
    show P8.jsOrNull u.fallback_deal_id = none
    rw [hd]
    rfl

/-- Witness for C7: a body with no VIN and a concrete fallback deal, a user
with a configured fallback, and a user without one. -/
theorem fallback_deal_policy_witness :
    (P6.functionPayload "dealer@toyota.com" "Re: offer" "no vehicle number here"
      ⟨"u1", "deal9", "dlr3"⟩).deal_id = some "deal9" ∧
    (P8.messageData ⟨"u1", some "deal7"⟩ "dlr3" "Re: offer" "hello").deal_id = some "deal7" ∧
    (P8.messageData ⟨"u2", none⟩ "dlr3" "Re: offer" "hello").deal_id = none :=
  ⟨(fallback_deal_policy "dealer@toyota.com" "Re: offer" "no vehicle number here"
      ⟨"u1", "deal9", "dlr3"⟩ ⟨"u1", some "deal7"⟩ "dlr3" "Re: offer" "hello").1 (by decide),
   (fallback_deal_policy "dealer@toyota.com" "Re: offer" "no vehicle number here"
      ⟨"u1", "deal9", "dlr3"⟩ ⟨"u1", some "deal7"⟩ "dlr3" "Re: offer" "hello").2.1
      "deal7" rfl (by decide),
   (fallback_deal_policy "dealer@toyota.com" "Re: offer" "no vehicle number here"
      ⟨"u1", "deal9", "dlr3"⟩ ⟨"u2", none⟩ "dlr3" "Re: offer" "hello").2.2 rfl⟩

end HaggleHub
